import Mathlib

/-!
Verification of the covid-papers-browser repository.

The repository has two source files:
- `src/data_providers/ElasticSearchProvider.py`: streams pickled document
  records into an Elasticsearch index in fixed-size batches;
- `src/searchers/ElasticSearcher.py`: builds a cosine-similarity
  script-score query and returns the raw engine response.

We embed the Python code shallowly: document records become association
lists from string keys to a JSON-like `Value` type (Python dicts preserve
insertion order and have unique keys); the batching loop becomes a
recursive function returning the list of flushed batches together with
the final buffer; the engine calls made by `__call__` become an explicit
event trace; the client library's `indices.delete(..., ignore=[404])`
call is modelled by a small semantics of the delete endpoint in which a
status code listed in `ignore` is suppressed instead of raised.
-/

namespace CovidPapers

/-- A JSON-like value: the payloads held in the Python dictionaries that
make up a document record and a request body. -/
inductive Value where
  | str (s : String)
  | num (n : Int)
  | list (l : List Value)
  | obj (kvs : List (String × Value))

/-- A Python dict with string keys, in insertion order (keys unique). -/
abbrev Entry := List (String × Value)

/-- Python dict assignment `d[k] = v`: replace the value at an existing
key in place, otherwise append the new binding at the end. -/
def setKey : Entry → String → Value → Entry
  | [], k, v => [(k, v)]
  | (k', v') :: es, k, v =>
      if k' == k then (k', v) :: es else (k', v') :: setKey es k v

/-- The tagging step of `create_and_bulk_documents`:
`entry_elastic = {**entry, '_op_type': 'index', '_index': self.index_name}`.
Python dict-merge semantics: later keys overwrite earlier ones. -/
def tagEntry (index_name : String) (e : Entry) : Entry :=
  setKey (setKey e "_op_type" (Value.str "index")) "_index" (Value.str index_name)

/-- Python slicing `x[:n]`, defined on the sliceable values (lists and
strings); slicing any other value raises `TypeError`. -/
def sliceVal (n : Nat) : Value → Except String Value
  | Value.list l => Except.ok (Value.list (l.take n))
  | Value.str s => Except.ok (Value.str (s.take n))
  | _ => Except.error "TypeError: object is not subscriptable"

/-- The per-entry truncation step shared by `from_pkls` and `from_pkl`:
```
if 'paragraphs' in entry:
    entry['paragraphs'] = entry['paragraphs'][:n_paragraphs]
    entry['paragraphs_embeddings'] = entry['paragraphs_embeddings'][:n_paragraphs]
```
Reading `entry['paragraphs_embeddings']` on a dict lacking that key
raises `KeyError`. -/
def truncEntry (n_paragraphs : Nat) (e : Entry) : Except String Entry :=
  match e.lookup "paragraphs" with
  | none => Except.ok e
  | some v =>
      match sliceVal n_paragraphs v with
      | Except.error err => Except.error err
      | Except.ok v' =>
          let e1 := setKey e "paragraphs" v'
          match e1.lookup "paragraphs_embeddings" with
          | none => Except.error "KeyError: paragraphs_embeddings"
          | some w =>
              match sliceVal n_paragraphs w with
              | Except.error err => Except.error err
              | Except.ok w' => Except.ok (setKey e1 "paragraphs_embeddings" w')

/-- Processing the entries of one file as `from_pkl`'s stream does: the
loop has no exception handler, so the first error escapes to the caller
(the consumer of the generator). -/
def processEntries (n_paragraphs : Nat) : List Entry → Except String (List Entry)
  | [] => Except.ok []
  | e :: es =>
      match truncEntry n_paragraphs e with
      | Except.error err => Except.error err
      | Except.ok e' =>
          match processEntries n_paragraphs es with
          | Except.error err => Except.error err
          | Except.ok es' => Except.ok (e' :: es')

/-- The entries a single file actually contributes under `from_pkls`'s
per-file `try`/`except`: entries are yielded one by one until the first
error, which aborts the rest of that file only. -/
def processPrefix (n_paragraphs : Nat) : List Entry → List Entry
  | [] => []
  | e :: es =>
      match truncEntry n_paragraphs e with
      | Except.ok e' => e' :: processPrefix n_paragraphs es
      | Except.error _ => []

/-- One source file as seen by `from_pkls`: either the record list the
pickle holds, or the read/deserialization error raised when opening or
unpickling it. -/
abbrev SourceFile := Except String (List Entry)

/-- What one source file contributes to `from_pkls`'s record stream: a
file whose open/unpickle fails contributes nothing (the `except` clause
logs and moves on); otherwise its entries up to the first per-entry
error. -/
def processFileCaught (n_paragraphs : Nat) : SourceFile → List Entry
  | Except.error _ => []
  | Except.ok es => processPrefix n_paragraphs es

/-- The full record stream of `from_pkls`: the files of the directory
glob, in order, each contributing via the per-file handler. The stream
itself never raises. -/
def fromPkls (n_paragraphs : Nat) (files : List SourceFile) : List Entry :=
  files.flatMap (processFileCaught n_paragraphs)

/-- The loop of `create_and_bulk_documents`: each entry is tagged and
appended to `self.doc`; whenever `len(self.doc) >= batch_size` the
buffer is bulk-flushed and reset to `[]`. Returns the flushed batches
in order, together with the final (unflushed) buffer. -/
def cabdRun (index_name : String) (batch_size : Nat) :
    List Entry → List Entry → List (List Entry) × List Entry
  | doc, [] => ([], doc)
  | doc, e :: es =>
      let doc' := doc ++ [tagEntry index_name e]
      if batch_size ≤ doc'.length then
        let r := cabdRun index_name batch_size [] es
        (doc' :: r.1, r.2)
      else
        cabdRun index_name batch_size doc' es

/-- One step of the loop, instrumented: the flushed batch, if this step
flushed, together with the buffer contents after the step. -/
def cabdStep (index_name : String) (batch_size : Nat) (doc : List Entry)
    (e : Entry) : Option (List Entry) × List Entry :=
  let doc' := doc ++ [tagEntry index_name e]
  if batch_size ≤ doc'.length then (some doc', []) else (none, doc')

/-- The instrumented trace of the loop: for each consumed entry, the
batch flushed at that step (if any) and the buffer after the step. -/
def cabdTrace (index_name : String) (batch_size : Nat) :
    List Entry → List Entry → List (Option (List Entry) × List Entry)
  | _, [] => []
  | doc, e :: es =>
      let s := cabdStep index_name batch_size doc e
      s :: cabdTrace index_name batch_size s.2 es

/-- The calls `ElasticSearchProvider` issues against the engine. -/
inductive ESEvent where
  | deleteIndex (index : String) (ignore : List Nat)
  | createIndex (index : String) (body : Value)
  | bulkWrite (docs : List Entry)

/-- The `ElasticSearchProvider` dataclass (the `client` field is the
external engine handle and is represented by the events the provider
sends to it). -/
structure ElasticSearchProvider where
  entries : List Entry
  index_file : Value
  doc : List Entry := []
  index_name : String := "covid-19"

/-- `drop`: `self.client.indices.delete(index=self.index_name, ignore=[404])`. -/
def ElasticSearchProvider.dropTrace (p : ElasticSearchProvider) : List ESEvent :=
  [ESEvent.deleteIndex p.index_name [404]]

/-- `create_index`: `self.client.indices.create(index=self.index_name, body=self.index_file)`. -/
def ElasticSearchProvider.createIndexTrace (p : ElasticSearchProvider) : List ESEvent :=
  [ESEvent.createIndex p.index_name p.index_file]

/-- `create_and_bulk_documents`: the bulk calls issued by the loop, and
the provider with `self.doc` holding the last (unflushed) buffer. -/
def ElasticSearchProvider.createAndBulkTrace (p : ElasticSearchProvider)
    (batch_size : Nat) : List ESEvent × ElasticSearchProvider :=
  let r := cabdRun p.index_name batch_size p.doc p.entries
  (r.1.map ESEvent.bulkWrite, { p with doc := r.2 })

/-- `__call__`: `self.drop()`, then `self.create_index()`, then
`self.create_and_bulk_documents(batch_size)`, returning `self`. -/
def ElasticSearchProvider.callTrace (p : ElasticSearchProvider)
    (batch_size : Nat) : List ESEvent × ElasticSearchProvider :=
  let t := p.createAndBulkTrace batch_size
  (p.dropTrace ++ p.createIndexTrace ++ t.1, t.2)

/-- Semantics of the client library's index-delete endpoint, against a
state listing the existing index names: deleting a missing index is a
404 error, but a status code listed in `ignore` is suppressed and the
call returns normally. -/
def indicesDelete (existing : List String) (index : String)
    (ignore : List Nat) : Except Nat (List String) :=
  if index ∈ existing then Except.ok (existing.erase index)
  else if 404 ∈ ignore then Except.ok existing
  else Except.error 404

/-- `drop` run against the delete-endpoint semantics. -/
def ElasticSearchProvider.dropRun (p : ElasticSearchProvider)
    (existing : List String) : Except Nat (List String) :=
  indicesDelete existing p.index_name [404]

/-- The painless scoring expression of the script-score query. -/
def cosineScriptSource : String :=
  "cosineSimilarity(params.query_vector, doc[\x27title_abstract_embeddings\x27]) + 1.0"

/-- The `script_query` dict built by `Elasticsearcher.__call__`. -/
def scriptQuery (vector : List Value) : Value :=
  Value.obj [("script_score", Value.obj
    [("query", Value.obj [("match_all", Value.obj [])]),
     ("script", Value.obj
       [("source", Value.str cosineScriptSource),
        ("params", Value.obj [("query_vector", Value.list vector)])])])]

/-- The request body passed to `self.client.search`. -/
def searchBody (vector : List Value) : Value :=
  Value.obj
    [("size", Value.num 25),
     ("query", scriptQuery vector),
     ("_source", Value.obj [("includes", Value.list [Value.str "title", Value.str "abstract"])])]

/-- Field access on an object value. -/
def Value.getKey : Value → String → Option Value
  | Value.obj kvs, k => kvs.lookup k
  | _, _ => none

/-- The `Elasticsearcher` dataclass (again the engine handle is kept
abstract). -/
structure Elasticsearcher where
  index_name : String := "covid-19"

/-- `Elasticsearcher.__call__`: build the body, call
`self.client.search(index=self.index_name, body=...)` and return `res`
unchanged. The engine is an arbitrary function from (index, body) to a
response of arbitrary type. -/
def Elasticsearcher.callSearch {α : Type} (s : Elasticsearcher)
    (search : String → Value → α) (vector : List Value) : α :=
  search s.index_name (searchBody vector)

/-! ### Helper lemmas -/

/-- Looking up the key just set yields the new value. -/
theorem lookup_setKey_self (e : Entry) (k : String) (v : Value) :
    (setKey e k v).lookup k = some v := by
  induction e with
  | nil => simp [setKey, List.lookup]
  | cons kv es ih =>
      obtain ⟨k', v'⟩ := kv
      by_cases h : k' = k
      · subst h
        simp [setKey, List.lookup]
      · have hb : (k' == k) = false := beq_eq_false_iff_ne.mpr h
        have hb2 : (k == k') = false := beq_eq_false_iff_ne.mpr (Ne.symm h)
        simp [setKey, hb, List.lookup, hb2, ih]

/-- Setting one key leaves every other key unchanged. -/
theorem lookup_setKey_other (e : Entry) (k : String) (v : Value) (k1 : String)
    (h : k1 ≠ k) : (setKey e k v).lookup k1 = e.lookup k1 := by
  have hb1k : (k1 == k) = false := beq_eq_false_iff_ne.mpr h
  induction e with
  | nil => simp [setKey, List.lookup, hb1k]
  | cons kv es ih =>
      obtain ⟨k', v'⟩ := kv
      by_cases hk : k' = k
      · subst hk
        simp [setKey, List.lookup, hb1k]
      · have hb : (k' == k) = false := beq_eq_false_iff_ne.mpr hk
        by_cases h1 : k1 = k'
        · subst h1
          simp [setKey, hb, List.lookup]
        · have hb1 : (k1 == k') = false := beq_eq_false_iff_ne.mpr h1
          simp [setKey, hb, List.lookup, hb1, ih]

/-- The domain after `setKey` is the old domain plus the set key. -/
theorem lookup_setKey_isSome (e : Entry) (k : String) (v : Value) (k1 : String) :
    ((setKey e k v).lookup k1).isSome ↔ (k1 = k ∨ (e.lookup k1).isSome) := by
  by_cases h : k1 = k
  · subst h
    simp [lookup_setKey_self]
  · simp [lookup_setKey_other e k v k1 h, h]

/-- Full behavior of the `create_and_bulk_documents` loop from any buffer
shorter than the batch size: number of flushes, size of each flush,
order preservation, and size of the final buffer. -/
theorem cabdRun_spec (index_name : String) (batch_size : Nat)
    (hbs : 1 ≤ batch_size) :
    ∀ (es doc : List Entry), doc.length < batch_size →
      (cabdRun index_name batch_size doc es).1.length
          = (doc.length + es.length) / batch_size ∧
      (∀ b ∈ (cabdRun index_name batch_size doc es).1, b.length = batch_size) ∧
      (cabdRun index_name batch_size doc es).1.flatten
          ++ (cabdRun index_name batch_size doc es).2
        = doc ++ es.map (tagEntry index_name) ∧
      (cabdRun index_name batch_size doc es).2.length
          = (doc.length + es.length) % batch_size := by
  intro es
  induction es with
  | nil =>
      intro doc hdoc
      simp [cabdRun, Nat.div_eq_of_lt hdoc, Nat.mod_eq_of_lt hdoc]
  | cons e es ih =>
      intro doc hdoc
      have hdoclen : (doc ++ [tagEntry index_name e]).length = doc.length + 1 := by
        simp
      by_cases h : batch_size ≤ (doc ++ [tagEntry index_name e]).length
      · have hlen : doc.length + 1 = batch_size := by omega
        have hr : cabdRun index_name batch_size doc (e :: es)
            = ((doc ++ [tagEntry index_name e])
                :: (cabdRun index_name batch_size [] es).1,
               (cabdRun index_name batch_size [] es).2) := by
          rw [cabdRun]
          rw [if_pos h]
        obtain ⟨ih1, ih2, ih3, ih4⟩ := ih [] (by simpa using hbs)
        simp only [List.length_nil, Nat.zero_add, List.nil_append] at ih1 ih3 ih4
        have harith : doc.length + (e :: es).length = es.length + batch_size := by
          simp only [List.length_cons]
          omega
        refine ⟨?_, ?_, ?_, ?_⟩
        · rw [hr, harith, Nat.add_div_right _ hbs]
          simp [ih1]
        · rw [hr]
          intro b hb
          rw [List.mem_cons] at hb
          rcases hb with hb | hb
          · rw [hb, hdoclen, hlen]
          · exact ih2 b hb
        · rw [hr]
          simp only [List.flatten_cons, List.map_cons, List.append_assoc, ih3]
          simp
        · rw [hr, harith, Nat.add_mod_right]
          exact ih4
      · have hlen : (doc ++ [tagEntry index_name e]).length < batch_size := by
          omega
        have hr : cabdRun index_name batch_size doc (e :: es)
            = cabdRun index_name batch_size (doc ++ [tagEntry index_name e]) es := by
          rw [cabdRun]
          rw [if_neg h]
        obtain ⟨ih1, ih2, ih3, ih4⟩ := ih (doc ++ [tagEntry index_name e]) hlen
        have harith : (doc ++ [tagEntry index_name e]).length + es.length
            = doc.length + (e :: es).length := by
          simp only [List.length_cons]
          rw [hdoclen]
          omega
        refine ⟨?_, ?_, ?_, ?_⟩
        · rw [hr, ih1, harith]
        · rw [hr]; exact ih2
        · rw [hr, ih3]
          simp
        · rw [hr, ih4, harith]

/-- Loop invariant of the instrumented trace: starting from any buffer
shorter than the batch size, after every step the buffer is again
shorter than the batch size, and a step that flushes flushes exactly
`batch_size` records and leaves an empty buffer. -/
theorem cabdTrace_inv (index_name : String) (batch_size : Nat)
    (hbs : 1 ≤ batch_size) :
    ∀ (es doc : List Entry), doc.length < batch_size →
      ∀ s ∈ cabdTrace index_name batch_size doc es,
        s.2.length < batch_size
          ∧ ∀ b, s.1 = some b → (b.length = batch_size ∧ s.2 = []) := by
  intro es
  induction es with
  | nil =>
      intro doc hdoc s hs
      simp [cabdTrace] at hs
  | cons e es ih =>
      intro doc hdoc s hs
      simp only [cabdTrace, List.mem_cons] at hs
      have hdoclen : (doc ++ [tagEntry index_name e]).length = doc.length + 1 := by
        simp
      by_cases h : batch_size ≤ (doc ++ [tagEntry index_name e]).length
      · have hstep : cabdStep index_name batch_size doc e
            = (some (doc ++ [tagEntry index_name e]), []) := by
          rw [cabdStep]
          rw [if_pos h]
        have hlen : (doc ++ [tagEntry index_name e]).length = batch_size := by
          omega
        rcases hs with hs | hs
        · rw [hstep] at hs
          rw [hs]
          refine ⟨by simpa using hbs, ?_⟩
          intro b hb
          have hb' : doc ++ [tagEntry index_name e] = b := by
            injection hb
          rw [← hb']
          exact ⟨hlen, rfl⟩
        · rw [hstep] at hs
          exact ih [] (by simpa using hbs) s hs
      · have hstep : cabdStep index_name batch_size doc e
            = (none, doc ++ [tagEntry index_name e]) := by
          rw [cabdStep]
          rw [if_neg h]
        have hlen : (doc ++ [tagEntry index_name e]).length < batch_size := by
          omega
        rcases hs with hs | hs
        · rw [hstep] at hs
          rw [hs]
          refine ⟨hlen, ?_⟩
          intro b hb
          simp at hb
        · rw [hstep] at hs
          exact ih (doc ++ [tagEntry index_name e]) hlen s hs

/-- The flushes recorded by the instrumented trace are exactly the
flushes of the plain loop: the trace is a faithful instrumentation. -/
theorem cabdRun_flushes_eq_trace (index_name : String) (batch_size : Nat) :
    ∀ (es doc : List Entry),
      (cabdRun index_name batch_size doc es).1
        = (cabdTrace index_name batch_size doc es).filterMap Prod.fst := by
  intro es
  induction es with
  | nil => intro doc; simp [cabdRun, cabdTrace]
  | cons e es ih =>
      intro doc
      by_cases h : batch_size ≤ (doc ++ [tagEntry index_name e]).length
      · rw [cabdRun, if_pos h, cabdTrace]
        rw [show cabdStep index_name batch_size doc e
              = (some (doc ++ [tagEntry index_name e]), []) from by
            rw [cabdStep]; rw [if_pos h]]
        simp [List.filterMap_cons, ih]
      · rw [cabdRun, if_neg h, cabdTrace]
        rw [show cabdStep index_name batch_size doc e
              = (none, doc ++ [tagEntry index_name e]) from by
            rw [cabdStep]; rw [if_neg h]]
        simp [List.filterMap_cons, ih]

/-- If the strict processing of a prefix succeeds, the caught processing
of that prefix followed by a failing entry yields exactly the processed
prefix: the failing entry and everything after it are skipped. -/
theorem processPrefix_ok_append (n_paragraphs : Nat) :
    ∀ (es1 : List Entry) (out1 : List Entry),
      processEntries n_paragraphs es1 = Except.ok out1 →
      ∀ (e : Entry) (es2 : List Entry) (err : String),
        truncEntry n_paragraphs e = Except.error err →
        processPrefix n_paragraphs (es1 ++ e :: es2) = out1 := by
  intro es1
  induction es1 with
  | nil =>
      intro out1 hout e es2 err herr
      simp only [processEntries] at hout
      cases hout
      simp [processPrefix, herr]
  | cons a es1 ih =>
      intro out1 hout e es2 err herr
      cases ha : truncEntry n_paragraphs a with
      | error err' => rw [processEntries, ha] at hout; cases hout
      | ok a' =>
          rw [processEntries, ha] at hout
          cases hrest : processEntries n_paragraphs es1 with
          | error err' => rw [hrest] at hout; cases hout
          | ok out' =>
              rw [hrest] at hout
              cases hout
              rw [List.cons_append, processPrefix, ha,
                ih out' hrest e es2 err herr]

/-- If the strict processing of a prefix succeeds and a later entry
fails, the strict processing of the whole list fails with that entry's
error (the generator of `from_pkl` raises to its consumer). -/
theorem processEntries_append_err (n_paragraphs : Nat) :
    ∀ (es1 : List Entry) (out1 : List Entry),
      processEntries n_paragraphs es1 = Except.ok out1 →
      ∀ (e : Entry) (es2 : List Entry) (err : String),
        truncEntry n_paragraphs e = Except.error err →
        processEntries n_paragraphs (es1 ++ e :: es2) = Except.error err := by
  intro es1
  induction es1 with
  | nil =>
      intro out1 hout e es2 err herr
      simp only [List.nil_append]
      rw [processEntries, herr]
  | cons a es1 ih =>
      intro out1 hout e es2 err herr
      cases ha : truncEntry n_paragraphs a with
      | error err' => rw [processEntries, ha] at hout; cases hout
      | ok a' =>
          rw [processEntries, ha] at hout
          cases hrest : processEntries n_paragraphs es1 with
          | error err' => rw [hrest] at hout; cases hout
          | ok out' =>
              rw [List.cons_append, processEntries, ha,
                ih out' hrest e es2 err herr]

/-- `from_pkls` processes its files independently and in order. -/
theorem fromPkls_append (n_paragraphs : Nat) (pre suf : List SourceFile)
    (f : SourceFile) :
    fromPkls n_paragraphs (pre ++ f :: suf)
      = fromPkls n_paragraphs pre
        ++ processFileCaught n_paragraphs f
        ++ fromPkls n_paragraphs suf := by
  simp [fromPkls]

/-! ### Claim theorems -/

/-- C1: for every batch size ≥ 1 and every sequence of `n` input
records, `create_and_bulk_documents` (started with its default empty
buffer) issues exactly `n / batch_size` flush operations (floor
coverage of full batches), each flush carrying exactly `batch_size`
records in input order (the flushes concatenated with the leftover
buffer give back the tagged input sequence), and the trailing
`n % batch_size` records are left in the buffer unflushed. -/
theorem create_and_bulk_documents_batching (index_name : String)
    (batch_size : Nat) (entries : List Entry) (hbs : 1 ≤ batch_size) :
    (cabdRun index_name batch_size [] entries).1.length
        = entries.length / batch_size ∧
    (∀ b ∈ (cabdRun index_name batch_size [] entries).1,
        b.length = batch_size) ∧
    (cabdRun index_name batch_size [] entries).1.flatten
        ++ (cabdRun index_name batch_size [] entries).2
      = entries.map (tagEntry index_name) ∧
    (cabdRun index_name batch_size [] entries).2.length
        = entries.length % batch_size := by
  have h := cabdRun_spec index_name batch_size hbs entries []
    (by simpa using hbs)
  simpa using h

/-- C1 witness: the spec's own example. 300 records with batch size 128
give exactly 2 flushes and leave 44 records in the buffer. -/
theorem create_and_bulk_documents_batching_witness :
    (cabdRun "covid-19" 128 [] (List.replicate 300 ([] : Entry))).1.length = 2 ∧
    (cabdRun "covid-19" 128 [] (List.replicate 300 ([] : Entry))).2.length = 44 := by
  have h := create_and_bulk_documents_batching "covid-19" 128
    (List.replicate 300 ([] : Entry)) (by decide)
  have hlen : (List.replicate 300 ([] : Entry)).length = 300 :=
    List.length_replicate _ _
  refine ⟨?_, ?_⟩
  · rw [h.1, hlen]
  · rw [h.2.2.2, hlen]

/-- C9: buffer-bound invariant. For every batch size ≥ 1, starting from
an empty buffer, at every step of `create_and_bulk_documents` the
buffer `self.doc` holds at most `batch_size` records (its peak content,
the batch flushed at a flushing step, has exactly `batch_size` records),
and immediately after every flush the buffer is empty. -/
theorem buffer_bound_invariant (index_name : String) (batch_size : Nat)
    (entries : List Entry) (hbs : 1 ≤ batch_size)
    (s : Option (List Entry) × List Entry)
    (hs : s ∈ cabdTrace index_name batch_size [] entries) :
    s.2.length ≤ batch_size
      ∧ ∀ b, s.1 = some b → (b.length ≤ batch_size ∧ s.2 = []) := by
  have h := cabdTrace_inv index_name batch_size hbs entries []
    (by simpa using hbs) s hs
  exact ⟨Nat.le_of_lt h.1,
    fun b hb => ⟨Nat.le_of_eq (h.2 b hb).1, (h.2 b hb).2⟩⟩

/-- C9 witness: with batch size 1 and one (empty) record, the single
step flushes a one-record batch and leaves the buffer empty. -/
theorem buffer_bound_invariant_witness :
    (((some [tagEntry "covid-19" []], [])
        : Option (List Entry) × List Entry).2.length ≤ 1)
      ∧ ∀ b, ((some [tagEntry "covid-19" []], [])
          : Option (List Entry) × List Entry).1 = some b
        → (b.length ≤ 1
            ∧ ((some [tagEntry "covid-19" []], [])
                : Option (List Entry) × List Entry).2 = []) :=
  buffer_bound_invariant "covid-19" 1 [[]] (by decide)
    (some [tagEntry "covid-19" []], []) (List.Mem.head _)

/-- C3: query construction in `Elasticsearcher.__call__` is pure and
deterministic — the request body is a function of the input vector
alone, so two calls with the same vector produce identical bodies — and
every generated body sets `size` to exactly 25 and restricts `_source`
to exactly the two fields `title` and `abstract`. -/
theorem search_body_deterministic_size_fields (vector : List Value) :
    searchBody vector = searchBody vector ∧
    (searchBody vector).getKey "size" = some (Value.num 25) ∧
    (searchBody vector).getKey "_source"
      = some (Value.obj
          [("includes", Value.list [Value.str "title", Value.str "abstract"])]) :=
  ⟨rfl, rfl, rfl⟩

/-- C4: for every input vector, the query built by
`Elasticsearcher.__call__` is a script-score query over all documents
(`match_all`) whose scoring expression is
`cosineSimilarity(params.query_vector, doc[...]) + 1.0` with the input
vector passed as the `query_vector` parameter, and the engine's search
response — for any engine — is returned unmodified. -/
theorem search_query_script_score_raw_response {α : Type}
    (s : Elasticsearcher) (search : String → Value → α) (vector : List Value) :
    s.callSearch search vector = search s.index_name (searchBody vector) ∧
    (searchBody vector).getKey "query" = some (scriptQuery vector) ∧
    (scriptQuery vector).getKey "script_score"
      = some (Value.obj
          [("query", Value.obj [("match_all", Value.obj [])]),
           ("script", Value.obj
             [("source", Value.str cosineScriptSource),
              ("params", Value.obj [("query_vector", Value.list vector)])])]) :=
  ⟨rfl, rfl, rfl⟩

/-- C5: dropping the index never errors when the index does not exist:
`drop` passes `ignore=[404]`, so the not-found response is suppressed
and the call completes normally; in every state the result is the state
with the index removed (removal of an absent index is the identity). -/
theorem drop_missing_index_no_error (p : ElasticSearchProvider)
    (existing : List String) :
    p.dropRun existing = Except.ok (existing.erase p.index_name) := by
  unfold ElasticSearchProvider.dropRun indicesDelete
  by_cases h : p.index_name ∈ existing
  · simp [h]
  · simp [h, List.erase_of_not_mem h]

/-- C7: on every full run, `__call__` issues first the deletion of the
configured index, then the creation of a new index from the supplied
mapping, then the bulk writes of the record sequence — in this exact
order, with no other engine calls. -/
theorem provider_call_order (p : ElasticSearchProvider) (batch_size : Nat) :
    (p.callTrace batch_size).1
      = ESEvent.deleteIndex p.index_name [404]
        :: ESEvent.createIndex p.index_name p.index_file
        :: (cabdRun p.index_name batch_size p.doc p.entries).1.map
            ESEvent.bulkWrite :=
  rfl

/-- When a record holds a paragraph list and an embedding list, the
truncation step succeeds and replaces both by their first
`n_paragraphs` elements. -/
theorem truncEntry_ok_of_lists (n_paragraphs : Nat) (e : Entry)
    (ps qs : List Value)
    (hp : e.lookup "paragraphs" = some (Value.list ps))
    (hq : e.lookup "paragraphs_embeddings" = some (Value.list qs)) :
    truncEntry n_paragraphs e
      = Except.ok (setKey (setKey e "paragraphs"
            (Value.list (ps.take n_paragraphs)))
          "paragraphs_embeddings" (Value.list (qs.take n_paragraphs))) := by
  have h1 : (setKey e "paragraphs"
        (Value.list (ps.take n_paragraphs))).lookup "paragraphs_embeddings"
      = some (Value.list qs) := by
    rw [lookup_setKey_other _ _ _ _ (by decide)]
    exact hq
  simp only [truncEntry, hp, sliceVal, h1]

/-- C2 counterexample: truncation with limit 100 of a record whose
paragraph list has 2 elements and whose embedding list has 1 element
leaves both lists unchanged — lengths 2 and 1, which are not equal, so
"the two lists have equal length" fails for this loaded record. -/
theorem paragraph_truncation_unequal_cex :
    truncEntry 100 [("paragraphs", Value.list [Value.num 1, Value.num 2]),
        ("paragraphs_embeddings", Value.list [Value.num 3])]
      = Except.ok [("paragraphs", Value.list [Value.num 1, Value.num 2]),
          ("paragraphs_embeddings", Value.list [Value.num 3])] ∧
    ([Value.num 1, Value.num 2].length ≤ 100 ∧
      [Value.num 3].length ≤ 100) ∧
    [Value.num 1, Value.num 2].length ≠ [Value.num 3].length :=
  ⟨rfl, by decide, by decide⟩

/-- C2 amended: for every record holding a paragraph list `ps` and an
embedding list `qs`, after loading both lists have length ≤ the
configured `n_paragraphs` limit; they have equal length provided the
input lists were parallel (`ps.length = qs.length`), as the data model
assumes — truncation alone does not equalize lists of different
lengths. -/
theorem paragraph_truncation_bounds (n_paragraphs : Nat) (e : Entry)
    (ps qs : List Value)
    (hp : e.lookup "paragraphs" = some (Value.list ps))
    (hq : e.lookup "paragraphs_embeddings" = some (Value.list qs)) :
    truncEntry n_paragraphs e
      = Except.ok (setKey (setKey e "paragraphs"
            (Value.list (ps.take n_paragraphs)))
          "paragraphs_embeddings" (Value.list (qs.take n_paragraphs))) ∧
    (setKey (setKey e "paragraphs" (Value.list (ps.take n_paragraphs)))
        "paragraphs_embeddings"
        (Value.list (qs.take n_paragraphs))).lookup "paragraphs"
      = some (Value.list (ps.take n_paragraphs)) ∧
    (setKey (setKey e "paragraphs" (Value.list (ps.take n_paragraphs)))
        "paragraphs_embeddings"
        (Value.list (qs.take n_paragraphs))).lookup "paragraphs_embeddings"
      = some (Value.list (qs.take n_paragraphs)) ∧
    (ps.take n_paragraphs).length ≤ n_paragraphs ∧
    (qs.take n_paragraphs).length ≤ n_paragraphs ∧
    (ps.length = qs.length →
      (ps.take n_paragraphs).length = (qs.take n_paragraphs).length) := by
  refine ⟨truncEntry_ok_of_lists n_paragraphs e ps qs hp hq, ?_, ?_, ?_, ?_, ?_⟩
  · rw [lookup_setKey_other _ _ _ _ (by decide), lookup_setKey_self]
  · rw [lookup_setKey_self]
  · exact List.length_take_le _ _
  · exact List.length_take_le _ _
  · intro hlen
    simp [List.length_take, hlen]

/-- C2 witness: truncating a record with two parallel 2-element lists
to limit 1 keeps lists of equal length 1. -/
theorem paragraph_truncation_bounds_witness :
    truncEntry 1 [("paragraphs", Value.list [Value.num 1, Value.num 2]),
        ("paragraphs_embeddings", Value.list [Value.num 3, Value.num 4])]
      = Except.ok [("paragraphs", Value.list [Value.num 1]),
          ("paragraphs_embeddings", Value.list [Value.num 3])] :=
  (paragraph_truncation_bounds 1
    [("paragraphs", Value.list [Value.num 1, Value.num 2]),
     ("paragraphs_embeddings", Value.list [Value.num 3, Value.num 4])]
    [Value.num 1, Value.num 2] [Value.num 3, Value.num 4]
    rfl rfl).1

/-- C6: per-source-file errors are isolated. A file whose entries fail
mid-way contributes exactly the records processed before the failure —
the rest of that file is skipped — and a file that fails to open or
unpickle contributes nothing; in both cases the stream continues with
the surrounding files and `from_pkls` returns a plain record list, so
no error reaches the caller and no file is retried. -/
theorem from_pkls_error_isolation (n_paragraphs : Nat)
    (pre suf : List SourceFile) (es1 es2 : List Entry) (out1 : List Entry)
    (e : Entry) (errE errF : String)
    (hok : processEntries n_paragraphs es1 = Except.ok out1)
    (hbad : truncEntry n_paragraphs e = Except.error errE) :
    fromPkls n_paragraphs (pre ++ Except.ok (es1 ++ e :: es2) :: suf)
      = fromPkls n_paragraphs pre ++ out1 ++ fromPkls n_paragraphs suf ∧
    fromPkls n_paragraphs (pre ++ Except.error errF :: suf)
      = fromPkls n_paragraphs pre ++ fromPkls n_paragraphs suf := by
  constructor
  · rw [fromPkls_append]
    rw [show processFileCaught n_paragraphs (Except.ok (es1 ++ e :: es2))
          = processPrefix n_paragraphs (es1 ++ e :: es2) from rfl]
    rw [processPrefix_ok_append n_paragraphs es1 out1 hok e es2 errE hbad]
  · rw [fromPkls_append]
    simp [processFileCaught]

/-- C6 witness: a directory with a file whose only record fails
truncation followed by a healthy file, and a directory with an
unreadable file followed by a healthy file: both streams yield exactly
the healthy file's record. -/
theorem from_pkls_error_isolation_witness :
    fromPkls 100 [Except.ok [[("paragraphs", Value.list [])]],
        Except.ok [([] : Entry)]] = [([] : Entry)] ∧
    fromPkls 100 [Except.error "EOFError", Except.ok [([] : Entry)]]
      = [([] : Entry)] := by
  have h := from_pkls_error_isolation 100 [] [Except.ok [([] : Entry)]]
    [] [] [] [("paragraphs", Value.list [])]
    "KeyError: paragraphs_embeddings" "EOFError" rfl rfl
  exact ⟨h.1, h.2⟩

/-- C8 counterexample: a record that already holds an `_op_type` field
does not keep its value through tagging — Python's dict merge lets the
metadata overwrite it — refuting "every original field of the record
and its value are unchanged by the tagging step". -/
theorem tag_entry_overwrites_cex :
    (tagEntry "covid-19" [("_op_type", Value.str "delete")]).lookup "_op_type"
      = some (Value.str "index") ∧
    ([("_op_type", Value.str "delete")] : Entry).lookup "_op_type"
      = some (Value.str "delete") ∧
    Value.str "index" ≠ Value.str "delete" := by
  refine ⟨rfl, rfl, ?_⟩
  intro h
  injection h with h'
  exact absurd h' (by decide)

/-- C8 amended: the tagged record submitted to the bulk endpoint equals
the source record extended with exactly the two metadata fields
`_op_type = 'index'` and `_index =` the configured index name; every
original field OTHER THAN a pre-existing `_op_type` or `_index` keeps
its value (a record already holding one of the metadata keys has it
overwritten by the merge). -/
theorem tag_entry_frame (index_name : String) (e : Entry) (k : String)
    (h1 : k ≠ "_op_type") (h2 : k ≠ "_index") :
    (tagEntry index_name e).lookup "_op_type" = some (Value.str "index") ∧
    (tagEntry index_name e).lookup "_index" = some (Value.str index_name) ∧
    (tagEntry index_name e).lookup k = e.lookup k ∧
    ∀ k1, ((tagEntry index_name e).lookup k1).isSome
        ↔ (k1 = "_op_type" ∨ k1 = "_index" ∨ (e.lookup k1).isSome) := by
  refine ⟨?_, ?_, ?_, ?_⟩
  · rw [tagEntry, lookup_setKey_other _ _ _ _ (by decide), lookup_setKey_self]
  · rw [tagEntry, lookup_setKey_self]
  · rw [tagEntry, lookup_setKey_other _ _ _ _ h2,
      lookup_setKey_other _ _ _ _ h1]
  · intro k1
    rw [tagEntry, lookup_setKey_isSome, lookup_setKey_isSome]
    tauto

/-- C8 witness: an ordinary field (`title`) of a tagged record keeps
its value. -/
theorem tag_entry_frame_witness :
    (tagEntry "covid-19" [("title", Value.str "t")]).lookup "title"
      = some (Value.str "t") :=
  (tag_entry_frame "covid-19" [("title", Value.str "t")] "title"
    (by decide) (by decide)).2.2.1

/-- C10: a record with a `paragraphs` key but no `paragraphs_embeddings`
key makes the truncation step fail with a missing-key error; under
`from_pkls`'s per-file handler the error is caught, so of that file
only the records before the bad one are kept and the rest are silently
skipped, while `from_pkl`'s stream (no handler) propagates the error to
the caller. -/
theorem missing_embeddings_key_error (n_paragraphs : Nat) (e : Entry)
    (ps : List Value) (es1 es2 : List Entry) (out1 : List Entry)
    (hp : e.lookup "paragraphs" = some (Value.list ps))
    (hq : e.lookup "paragraphs_embeddings" = none)
    (hok : processEntries n_paragraphs es1 = Except.ok out1) :
    truncEntry n_paragraphs e
      = Except.error "KeyError: paragraphs_embeddings" ∧
    processFileCaught n_paragraphs (Except.ok (es1 ++ e :: es2)) = out1 ∧
    processEntries n_paragraphs (es1 ++ e :: es2)
      = Except.error "KeyError: paragraphs_embeddings" := by
  have herr : truncEntry n_paragraphs e
      = Except.error "KeyError: paragraphs_embeddings" := by
    have h1 : (setKey e "paragraphs"
          (Value.list (ps.take n_paragraphs))).lookup "paragraphs_embeddings"
        = none := by
      rw [lookup_setKey_other _ _ _ _ (by decide)]
      exact hq
    simp only [truncEntry, hp, sliceVal, h1]
  refine ⟨herr, ?_, processEntries_append_err _ es1 out1 hok e es2 _ herr⟩
  rw [show processFileCaught n_paragraphs (Except.ok (es1 ++ e :: es2))
        = processPrefix n_paragraphs (es1 ++ e :: es2) from rfl]
  exact processPrefix_ok_append _ es1 out1 hok e es2 _ herr

/-- C10 witness: a file holding one healthy record and then a record
with `paragraphs` but no `paragraphs_embeddings` keeps only the healthy
record under `from_pkls`, while `from_pkl`'s strict stream fails. -/
theorem missing_embeddings_key_error_witness :
    truncEntry 100 [("paragraphs", Value.list [])]
      = Except.error "KeyError: paragraphs_embeddings" ∧
    processFileCaught 100
        (Except.ok [([] : Entry), [("paragraphs", Value.list [])]]) = [[]] ∧
    processEntries 100 [([] : Entry), [("paragraphs", Value.list [])]]
      = Except.error "KeyError: paragraphs_embeddings" :=
  missing_embeddings_key_error 100 [("paragraphs", Value.list [])] []
    [([] : Entry)] [] [([] : Entry)] rfl rfl rfl

end CovidPapers
